import Mathlib

/-!
Verification of the batch translation pipeline of the GPT-Translator
repository (a browser subtitle translator).  The repository contains
several near-duplicate variants of the `App` component; the embedding
below models, per variant, the functions the claims reference:

* `processSingleTask` — the Batch Orchestrator (three variants:
  `src/unnamed/part_000`, the first `App.tsx` variant, and the second
  `App.tsx` variant);
* the merge step `translatedBatch.forEach(... findIndex ...)`;
* `processQueue` — the Task Queue Manager;
* `processFiles` — task creation / enqueueing;
* `translateSubtitleBatch` — the Translation Provider Adapter
  (request construction of `src/services/openaiService.ts`).

State updates performed through React's `updateTask` callback are made
explicit: each run returns the final `FileTask` together with the trace
of published progress values, published `processedSubs` snapshots and
the list of batches sent to the provider.
-/

namespace GPTTranslator

/-- Modelled from the spec (the shared `types.ts` module is not under
`src/`): task lifecycle status, one of Idle, Processing, Completed,
Error.  The string values of the TS enum are irrelevant to the claims. -/
inductive ProcessingStatus where
  | IDLE
  | PROCESSING
  | COMPLETED
  | ERROR
deriving DecidableEq, Repr

/-- Modelled from the spec (the shared `types.ts` module is not under
`src/`): one subtitle entry `{id, time span, text}`.  The id is an
integer unique within a file; the displayed time span is opaque to the
core and kept as a single string field. -/
structure SubtitleEntry where
  id : Int
  time : String
  text : String
deriving DecidableEq, Repr

/-- A JavaScript runtime id value as it may arrive from a provider
response: the declared TS type is `number`, but a provider may echo ids
as strings (the reason `src/unnamed/part_000` uses loose equality). -/
inductive JsId where
  | num (n : Int)
  | str (s : String)
deriving DecidableEq, Repr

/-- Modelled from the spec (the shared `types.ts` module is not under
`src/`): the provider's output unit `{id, translatedText}`.  The id is
kept as a runtime `JsId` so that both strict and loose id comparison
can be stated. -/
structure TranslationResult where
  id : JsId
  translatedText : String
deriving DecidableEq, Repr

/-- Modelled from the spec (the shared `types.ts` module is not under
`src/`): one file's task record as created by `processFiles` and
updated by `updateTask`. -/
structure FileTask where
  id : String
  fileName : String
  originalSubs : List SubtitleEntry
  processedSubs : List SubtitleEntry
  prompt : String
  status : ProcessingStatus
  progress : Nat
  error : Option String
deriving DecidableEq, Repr

/-- JavaScript strict equality `r.id === tSub.id` between a numeric
entry id and a runtime result id: a number never equals a string. -/
def strictEqId (n : Int) (j : JsId) : Bool :=
  match j with
  | .num m => n == m
  | .str _ => false

/-- Decimal digit accumulation over a character list; `none` on any
non-digit character (JavaScript `ToNumber` yields `NaN` there, which
compares equal to nothing). -/
def decDigits (cs : List Char) : Option Nat :=
  cs.foldl
    (fun acc c =>
      match acc with
      | none => none
      | some n => if c.isDigit then some (n * 10 + (c.toNat - '0'.toNat)) else none)
    (some 0)

/-- JavaScript `ToNumber` on a string, restricted to optionally signed
decimal integer strings (the shape of ids echoed by a provider);
anything else is `NaN`, modelled as `none`. -/
def jsStrToInt (s : String) : Option Int :=
  match s.data with
  | '-' :: rest => (decDigits rest).map (fun n => -(n : Int))
  | cs => (decDigits cs).map Int.ofNat

/-- JavaScript loose equality `r.id == tSub.id` between a numeric entry
id and a runtime result id: comparing a number with a string converts
the string with `ToNumber` (modelled by `jsStrToInt`), so `"3"` does
compare equal to `3`. -/
def looseEqId (n : Int) (j : JsId) : Bool :=
  match j with
  | .num m => n == m
  | .str s => jsStrToInt s == some n

/-- The merge step of `processSingleTask`
(`src/unnamed/part_000:130-136`, `src/App.tsx:468-471`): find the first
entry of the working copy whose id matches the result's id
(`results.findIndex`) and overwrite only its `text` field; when no
entry matches, the working copy is returned unchanged.  The comparison
function is a parameter because the variants differ (`looseEqId` in
`part_000`, `strictEqId` in both `App.tsx` variants). -/
def applyResult (idEq : Int → JsId → Bool) :
    List SubtitleEntry → TranslationResult → List SubtitleEntry
  | [], _ => []
  | e :: rest, t =>
    if idEq e.id t.id then { e with text := t.translatedText } :: rest
    else e :: applyResult idEq rest t

/-- `translatedBatch.forEach((tSub) => ...)`: fold the merge step over
the results returned for one batch, in response order. -/
def mergeBatch (idEq : Int → JsId → Bool) (results : List SubtitleEntry)
    (translatedBatch : List TranslationResult) : List SubtitleEntry :=
  translatedBatch.foldl (applyResult idEq) results

/-- Structural helper for `chunkList`: the first argument is fuel
bounding the recursion depth (any value at least the list's length
yields the same result, see `chunkListFuel_congr`). -/
def chunkListFuel : Nat → Nat → List α → List (List α)
  | 0, _, _ => []
  | _ + 1, _, [] => []
  | fuel + 1, B, x :: xs =>
    (x :: xs.take (B - 1)) :: chunkListFuel fuel B (xs.drop (B - 1))

/-- The batching loop
`for (let i = 0; i < totalEntries; i += BATCH_SIZE) batches.push(originalSubs.slice(i, i + BATCH_SIZE))`
(`src/unnamed/part_000:121-124`, `src/App.tsx:457-460`): consecutive
contiguous slices of at most `B` entries, in original order. -/
def chunkList (B : Nat) (l : List α) : List (List α) :=
  chunkListFuel l.length B l

theorem chunkListFuel_congr (B : Nat) :
    ∀ (f1 f2 : Nat) (l : List α), l.length ≤ f1 → l.length ≤ f2 →
      chunkListFuel f1 B l = chunkListFuel f2 B l := by
  intro f1
  induction f1 with
  | zero =>
    intro f2 l h1 _
    have : l = [] := by
      cases l with
      | nil => rfl
      | cons x xs => simp at h1
    subst this
    cases f2 <;> rfl
  | succ f1 ih =>
    intro f2 l h1 h2
    cases l with
    | nil => cases f2 <;> rfl
    | cons x xs =>
      cases f2 with
      | zero => simp at h2
      | succ f2 =>
        rw [chunkListFuel, chunkListFuel]
        congr 1
        refine ih f2 (xs.drop (B - 1)) ?_ ?_ <;>
          simp only [List.length_drop] <;>
          simp only [List.length_cons] at h1 h2 <;> omega

theorem chunkList_nil (B : Nat) : chunkList B ([] : List α) = [] := rfl

theorem chunkList_cons (B : Nat) (x : α) (xs : List α) :
    chunkList B (x :: xs) =
      (x :: xs.take (B - 1)) :: chunkList B (xs.drop (B - 1)) := by
  rw [chunkList, chunkList, List.length_cons, chunkListFuel]
  congr 1
  refine chunkListFuel_congr B _ _ _ ?_ le_rfl
  simp only [List.length_drop]
  omega

/-- Concatenating the batches reconstructs the original entry list. -/
theorem chunkList_join (B : Nat) (l : List α) :
    (chunkList B l).flatten = l := by
  suffices H : ∀ (n : Nat) (l : List α), l.length ≤ n →
      (chunkList B l).flatten = l from H l.length l le_rfl
  intro n
  induction n with
  | zero =>
    intro l hl
    have : l = [] := by
      cases l with
      | nil => rfl
      | cons x xs => simp at hl
    subst this
    rfl
  | succ n ih =>
    intro l hl
    cases l with
    | nil => rfl
    | cons x xs =>
      rw [chunkList_cons]
      simp only [List.flatten_cons, List.cons_append]
      rw [ih (xs.drop (B - 1)) (by
        simp only [List.length_drop]
        simp only [List.length_cons] at hl
        omega)]
      rw [List.take_append_drop]

/-- The number of batches is `ceil (n / B)`, written `(n + B - 1) / B`. -/
theorem chunkList_length (B : Nat) (hB : 0 < B) (l : List α) :
    (chunkList B l).length = (l.length + B - 1) / B := by
  suffices H : ∀ (n : Nat) (l : List α), l.length ≤ n →
      (chunkList B l).length = (l.length + B - 1) / B from H l.length l le_rfl
  intro n
  induction n with
  | zero =>
    intro l hl
    have : l = [] := by
      cases l with
      | nil => rfl
      | cons x xs => simp at hl
    subst this
    simp only [chunkList_nil, List.length_nil, Nat.zero_add]
    exact (Nat.div_eq_of_lt (by omega)).symm
  | succ n ih =>
    intro l hl
    cases l with
    | nil =>
      simp only [chunkList_nil, List.length_nil, Nat.zero_add]
      exact (Nat.div_eq_of_lt (by omega)).symm
    | cons x xs =>
      rw [chunkList_cons]
      simp only [List.length_cons] at hl
      have ihd := ih (xs.drop (B - 1)) (by
        simp only [List.length_drop]
        omega)
      simp only [List.length_cons, List.length_drop] at ihd ⊢
      rcases Nat.lt_or_ge xs.length (B - 1) with h | h
      · have h0 : xs.length - (B - 1) = 0 := by omega
        rw [h0] at ihd
        have h1 : (0 + B - 1) / B = 0 := Nat.div_eq_of_lt (by omega)
        have h2 : xs.length + 1 + B - 1 = xs.length + B := by omega
        rw [ihd, h1, h2, Nat.add_div_right _ hB, Nat.div_eq_of_lt (by omega)]
      · have h1 : xs.length - (B - 1) + B - 1 = xs.length := by omega
        rw [h1] at ihd
        have h2 : xs.length + 1 + B - 1 = xs.length + B := by omega
        rw [ihd, h2, Nat.add_div_right _ hB]

/-- Auxiliary: the last element of a cons list. -/
theorem getLast?_cons_eq (x : α) (xs : List α) :
    (x :: xs).getLast? = some (xs.getLast?.getD x) := by
  induction xs generalizing x with
  | nil => rfl
  | cons y ys ih => rw [List.getLast?_cons_cons, ih y]; simp

/-- The merge step never changes the number of entries. -/
theorem applyResult_length (idEq : Int → JsId → Bool)
    (l : List SubtitleEntry) (t : TranslationResult) :
    (applyResult idEq l t).length = l.length := by
  induction l with
  | nil => rfl
  | cons e rest ih =>
    rw [applyResult]
    split <;> simp [ih]

/-- The merge step never changes an entry's id or time span: the
projection dropping the text field is preserved. -/
theorem applyResult_map_idTime (idEq : Int → JsId → Bool)
    (l : List SubtitleEntry) (t : TranslationResult) :
    (applyResult idEq l t).map (fun e => (e.id, e.time)) =
      l.map (fun e => (e.id, e.time)) := by
  induction l with
  | nil => rfl
  | cons e rest ih =>
    rw [applyResult]
    split <;> simp [ih]

/-- A result whose id matches no entry of the working copy leaves the
working copy unchanged (`findIndex` returns `-1` and the guard
`index !== -1` skips the write). -/
theorem applyResult_no_match (idEq : Int → JsId → Bool)
    (l : List SubtitleEntry) (t : TranslationResult)
    (h : ∀ e ∈ l, idEq e.id t.id = false) :
    applyResult idEq l t = l := by
  induction l with
  | nil => rfl
  | cons e rest ih =>
    rw [applyResult, if_neg]
    · rw [ih fun e' he' => h e' (List.mem_cons_of_mem _ he')]
    · simp [h e (List.mem_cons_self _ _)]

/-- An id-comparison function is functional when a runtime result id
determines at most one numeric entry id.  Both JavaScript `===` and
`==` have this property for number/string operands. -/
def IdEqFunctional (idEq : Int → JsId → Bool) : Prop :=
  ∀ a b j, idEq a j = true → idEq b j = true → a = b

theorem strictEqId_functional : IdEqFunctional strictEqId := by
  intro a b j ha hb
  cases j with
  | num m => simp [strictEqId] at ha hb; omega
  | str s => simp [strictEqId] at ha

theorem looseEqId_functional : IdEqFunctional looseEqId := by
  intro a b j ha hb
  cases j with
  | num m => simp [looseEqId] at ha hb; omega
  | str s =>
    simp [looseEqId] at ha hb
    cases hs : jsStrToInt s with
    | none => rw [hs] at ha; simp at ha
    | some m => rw [hs] at ha hb; simp at ha hb; omega

/-- When the working copy's ids are distinct and the comparison is
functional, the first-match merge acts pointwise: the (unique) matching
entry gets the result's text, every other entry is untouched. -/
theorem applyResult_eq_map (idEq : Int → JsId → Bool)
    (hfun : IdEqFunctional idEq)
    (l : List SubtitleEntry) (hnodup : (l.map SubtitleEntry.id).Nodup)
    (t : TranslationResult) :
    applyResult idEq l t =
      l.map (fun e =>
        if idEq e.id t.id then { e with text := t.translatedText } else e) := by
  induction l with
  | nil => rfl
  | cons e rest ih =>
    simp only [List.map_cons, List.nodup_cons] at hnodup
    rw [applyResult]
    by_cases h : idEq e.id t.id = true
    · rw [if_pos h, List.map_cons, if_pos h]
      congr 1
      have hnone : ∀ e' ∈ rest, idEq e'.id t.id = false := by
        intro e' he'
        by_contra hc
        have : idEq e'.id t.id = true := by
          cases hx : idEq e'.id t.id with
          | false => exact absurd hx hc
          | true => rfl
        have heq : e'.id = e.id := hfun _ _ _ this h
        exact hnodup.1 (heq ▸ List.mem_map_of_mem SubtitleEntry.id he')
      symm
      calc rest.map (fun e' =>
              if idEq e'.id t.id then { e' with text := t.translatedText } else e')
          = rest.map (fun e' => e') :=
            List.map_congr_left (fun e' he' => by rw [if_neg (by simp [hnone e' he'])])
        _ = rest := List.map_id' rest
    · rw [if_neg h, List.map_cons, if_neg h, ih hnodup.2]

/-- Reference behaviour of the per-batch merge on one entry: the text
becomes the `translatedText` of the LAST returned result whose id
matches this entry's id, and stays the original text when no result
matches. -/
def mergedSpec (idEq : Int → JsId → Bool) (ts : List TranslationResult)
    (e : SubtitleEntry) : SubtitleEntry :=
  match (ts.filter (fun r => idEq e.id r.id)).getLast? with
  | some r => { e with text := r.translatedText }
  | none => e

theorem mergedSpec_id_time (idEq : Int → JsId → Bool)
    (ts : List TranslationResult) (e : SubtitleEntry) :
    (mergedSpec idEq ts e).id = e.id ∧ (mergedSpec idEq ts e).time = e.time := by
  rw [mergedSpec]
  split <;> simp

/-- Folding the merge over a batch's results equals the pointwise
last-match-wins description, provided entry ids are distinct and the
comparison is functional. -/
theorem mergeBatch_eq_map (idEq : Int → JsId → Bool)
    (hfun : IdEqFunctional idEq)
    (l : List SubtitleEntry) (hnodup : (l.map SubtitleEntry.id).Nodup)
    (ts : List TranslationResult) :
    mergeBatch idEq l ts = l.map (mergedSpec idEq ts) := by
  induction ts generalizing l with
  | nil =>
    rw [mergeBatch]
    simp only [List.foldl_nil]
    calc l = l.map (fun e => e) := (List.map_id' l).symm
      _ = l.map (mergedSpec idEq []) :=
        List.map_congr_left (fun e _ => by rw [mergedSpec]; simp)
  | cons t ts ih =>
    simp only [mergeBatch] at ih ⊢
    simp only [List.foldl_cons]
    have hstep := applyResult_eq_map idEq hfun l hnodup t
    have hnodup2 : ((applyResult idEq l t).map SubtitleEntry.id).Nodup := by
      have : (applyResult idEq l t).map SubtitleEntry.id = l.map SubtitleEntry.id := by
        have h2 := applyResult_map_idTime idEq l t
        calc (applyResult idEq l t).map SubtitleEntry.id
            = ((applyResult idEq l t).map (fun e => (e.id, e.time))).map Prod.fst := by
              rw [List.map_map]; rfl
          _ = (l.map (fun e => (e.id, e.time))).map Prod.fst := by rw [h2]
          _ = l.map SubtitleEntry.id := by rw [List.map_map]; rfl
      rw [this]; exact hnodup
    rw [ih (applyResult idEq l t) hnodup2, hstep, List.map_map]
    refine List.map_congr_left (fun e _ => ?_)
    simp only [Function.comp]
    by_cases h : idEq e.id t.id = true
    · rw [if_pos h, mergedSpec, mergedSpec]
      simp only [List.filter_cons, h, if_true]
      rw [getLast?_cons_eq]
      cases hl : (ts.filter (fun r => idEq e.id r.id)).getLast? with
      | none => simp [hl]
      | some r => simp [hl]
    · rw [if_neg h, mergedSpec, mergedSpec]
      have h' : idEq e.id t.id = false := by
        cases hx : idEq e.id t.id with
        | true => exact absurd hx h
        | false => rfl
      simp only [List.filter_cons, h']
      simp

/-- Trace of one batching loop: the `(progress, processedSubs)` pairs
published through `updateTask` after each batch, and the batches sent
to the provider, in call order. -/
structure LoopTrace where
  published : List (Nat × List SubtitleEntry)
  calls : List (List SubtitleEntry)
deriving DecidableEq, Repr

/-- Outcome of the batching loop: final working copy on success, or
the message of the first rejected adapter call. -/
inductive LoopResult where
  | ok (results : List SubtitleEntry) (trace : LoopTrace)
  | err (msg : String) (trace : LoopTrace)
deriving DecidableEq, Repr

/-- The batch loop of `processSingleTask`
(`src/unnamed/part_000:126-143`, `src/App.tsx:462-477`): for each batch
in order, one adapter call (`provider i` is the response to the `i`-th
call), then the merge over the returned results, then one
`updateTask` publish of the recomputed progress and a snapshot of the
working copy.  A rejected call aborts the loop immediately (the
exception unwinds to the surrounding `catch`).  `progAfter i c` is the
progress value published after batch `i`, where `c` counts cumulative
entries handled. -/
def runLoop (idEq : Int → JsId → Bool) (progAfter : Nat → Nat → Nat)
    (provider : Nat → Except String (List TranslationResult)) :
    List (List SubtitleEntry) → Nat → Nat → List SubtitleEntry → LoopResult
  | [], _, _, results => .ok results ⟨[], []⟩
  | batch :: rest, i, completed, results =>
    match provider i with
    | .error msg => .err msg ⟨[], [batch]⟩
    | .ok translatedBatch =>
      let results2 := mergeBatch idEq results translatedBatch
      let completed2 := completed + batch.length
      let pub := (progAfter i completed2, results2)
      match runLoop idEq progAfter provider rest (i + 1) completed2 results2 with
      | .ok final tr => .ok final ⟨pub :: tr.published, batch :: tr.calls⟩
      | .err m tr => .err m ⟨pub :: tr.published, batch :: tr.calls⟩

/-- Observable outcome of one `processSingleTask` run: the final task
record, every published progress value in order (including the value
published on entry and the terminal one), every published
`processedSubs` snapshot, the batches sent to the provider, and the
exception rethrown to the queue if any. -/
structure RunOutput where
  task : FileTask
  publishedProgress : List Nat
  publishedSubs : List (List SubtitleEntry)
  calls : List (List SubtitleEntry)
  threw : Option String
deriving DecidableEq, Repr

/-- `src/unnamed/part_000:107`. -/
def part000KeyErrorMsg : String :=
  "Chưa cấu hình API Key. Vui lòng nhấn vào biểu tượng cài đặt."

/-- `src/unnamed/part_000:153`: fallback when the thrown error has an
empty message. -/
def part000FallbackErrorMsg : String := "Lỗi trong quá trình dịch"

/-- `processSingleTask` of `src/unnamed/part_000:101-157`: guard on an
empty entry list (no-op), guard on a missing API key (Error status, no
adapter call), entry publish of `{status: PROCESSING, progress: 2,
error: undefined}`, `BATCH_SIZE = 30`, loose-equality merge, per-batch
progress `5 + floor((completedEntries / totalEntries) * 94)` (the
floating-point `Math.floor` is modelled by integer division), terminal
publish `{processedSubs, status: COMPLETED, progress: 100}` on
success; on failure `{status: ERROR, error: err.message || fallback}`
and the error is rethrown. -/
def processSingleTask_part000 (apiKey envApiKey : String)
    (provider : Nat → Except String (List TranslationResult))
    (task : FileTask) : RunOutput :=
  if task.originalSubs.length == 0 then ⟨task, [], [], [], none⟩
  else
    let activeKey := if apiKey == "" then envApiKey else apiKey
    if activeKey == "" then
      ⟨{ task with status := .ERROR, error := some part000KeyErrorMsg },
       [], [], [], none⟩
    else
      let t1 : FileTask :=
        { task with status := .PROCESSING, progress := 2, error := none }
      let totalEntries := task.originalSubs.length
      let batches := chunkList 30 task.originalSubs
      match runLoop looseEqId (fun _ c => 5 + 94 * c / totalEntries)
          provider batches 0 0 task.originalSubs with
      | .ok results tr =>
        ⟨{ t1 with processedSubs := results, status := .COMPLETED, progress := 100 },
         2 :: tr.published.map Prod.fst ++ [100],
         tr.published.map Prod.snd, tr.calls, none⟩
      | .err msg tr =>
        let errMsg := if msg == "" then part000FallbackErrorMsg else msg
        ⟨{ t1 with
            status := .ERROR,
            error := some errMsg,
            progress := ((tr.published.map Prod.fst).getLast?).getD 2,
            processedSubs :=
              ((tr.published.map Prod.snd).getLast?).getD task.processedSubs },
         2 :: tr.published.map Prod.fst,
         tr.published.map Prod.snd, tr.calls, some msg⟩

/-- The provider selector of the `App.tsx` variants. -/
inductive AIProvider where
  | openai
  | gemini
deriving DecidableEq, Repr

/-- `src/App.tsx:121` and `src/App.tsx:128`. -/
def appV1KeyErrorMsg : AIProvider → String
  | .openai => "Chưa nhập OpenAI Key"
  | .gemini => "Chưa nhập Gemini Key"

/-- `processSingleTask` of the first `App.tsx` variant
(`src/App.tsx:106-148`): entry publish of `{status: PROCESSING,
progress: 0, error: undefined}`, `BATCH_SIZE = 40`, a per-iteration
key check that throws before the adapter call when the active key is
empty, strict-equality merge, per-batch progress
`Math.floor(((i + BATCH_SIZE) / total) * 100)` where `i` is the index
of the batch's first entry (modelled by integer division), terminal
publish `{status: COMPLETED, progress: 100}`; on failure
`{status: ERROR, error: err.message}` and the error is rethrown. -/
def processSingleTask_appV1 (activeAI : AIProvider)
    (activeKeyGPT activeKeyGemini : String)
    (provider : Nat → Except String (List TranslationResult))
    (task : FileTask) : RunOutput :=
  if task.originalSubs.length == 0 then ⟨task, [], [], [], none⟩
  else
    let t1 : FileTask :=
      { task with status := .PROCESSING, progress := 0, error := none }
    let key := match activeAI with
      | .openai => activeKeyGPT
      | .gemini => activeKeyGemini
    if key == "" then
      let msg := appV1KeyErrorMsg activeAI
      ⟨{ t1 with status := .ERROR, error := some msg }, [0], [], [], some msg⟩
    else
      let total := task.originalSubs.length
      let batches := chunkList 40 task.originalSubs
      match runLoop strictEqId (fun i _ => (i * 40 + 40) * 100 / total)
          provider batches 0 0 task.originalSubs with
      | .ok _ tr =>
        ⟨{ t1 with
            processedSubs :=
              ((tr.published.map Prod.snd).getLast?).getD task.processedSubs,
            status := .COMPLETED, progress := 100 },
         0 :: tr.published.map Prod.fst ++ [100],
         tr.published.map Prod.snd, tr.calls, none⟩
      | .err msg tr =>
        ⟨{ t1 with
            status := .ERROR,
            error := some msg,
            progress := ((tr.published.map Prod.fst).getLast?).getD 0,
            processedSubs :=
              ((tr.published.map Prod.snd).getLast?).getD task.processedSubs },
         0 :: tr.published.map Prod.fst,
         tr.published.map Prod.snd, tr.calls, some msg⟩

/-- `src/App.tsx:447`. -/
def appV2KeyErrorMsg : AIProvider → String
  | .openai => "Vui lòng nhập API Key cho OPENAI."
  | .gemini => "Vui lòng nhập API Key cho GEMINI."

/-- `processSingleTask` of the second `App.tsx` variant
(`src/App.tsx:439-484`): guard on a missing key for the active
provider before any processing (Error status, no adapter call), entry
publish of `{status: PROCESSING, progress: 2, error: undefined}`,
`BATCH_SIZE = 40`, strict-equality merge, per-batch progress
`Math.floor(((i + 1) / batches.length) * 100)` (modelled by integer
division), terminal publish `{status: COMPLETED, progress: 100}`; on
failure `{status: ERROR, error: err.message}` and the error is
rethrown. -/
def processSingleTask_appV2 (activeAI : AIProvider)
    (apiKeyGPT apiKeyGemini : String)
    (provider : Nat → Except String (List TranslationResult))
    (task : FileTask) : RunOutput :=
  if task.originalSubs.length == 0 then ⟨task, [], [], [], none⟩
  else
    let currentKey := match activeAI with
      | .openai => apiKeyGPT
      | .gemini => apiKeyGemini
    if currentKey == "" then
      ⟨{ task with status := .ERROR, error := some (appV2KeyErrorMsg activeAI) },
       [], [], [], none⟩
    else
      let t1 : FileTask :=
        { task with status := .PROCESSING, progress := 2, error := none }
      let batches := chunkList 40 task.originalSubs
      match runLoop strictEqId (fun i _ => (i + 1) * 100 / batches.length)
          provider batches 0 0 task.originalSubs with
      | .ok _ tr =>
        ⟨{ t1 with
            processedSubs :=
              ((tr.published.map Prod.snd).getLast?).getD task.processedSubs,
            status := .COMPLETED, progress := 100 },
         2 :: tr.published.map Prod.fst ++ [100],
         tr.published.map Prod.snd, tr.calls, none⟩
      | .err msg tr =>
        ⟨{ t1 with
            status := .ERROR,
            error := some msg,
            progress := ((tr.published.map Prod.fst).getLast?).getD 2,
            processedSubs :=
              ((tr.published.map Prod.snd).getLast?).getD task.processedSubs },
         2 :: tr.published.map Prod.fst,
         tr.published.map Prod.snd, tr.calls, some msg⟩

/-- Convenience: `getD` through a cons'ed `getLast?`. -/
theorem getLastD_cons (x d : α) (l : List α) :
    ((x :: l).getLast?).getD d = (l.getLast?).getD x := by
  rw [getLast?_cons_eq]
  rfl

/-- When every adapter call resolves, the loop makes exactly one call
per batch (in order), succeeds with the working copy folded over all
responses, and its last published snapshot is that final copy. -/
theorem runLoop_ok (idEq : Int → JsId → Bool) (pa : Nat → Nat → Nat)
    (resp : Nat → List TranslationResult) :
    ∀ (batches : List (List SubtitleEntry)) (i0 c0 : Nat)
      (res : List SubtitleEntry),
      ∃ pubs,
        runLoop idEq pa (fun i => .ok (resp i)) batches i0 c0 res =
          .ok (List.foldl (mergeBatch idEq) res
                ((List.range' i0 batches.length).map resp)) ⟨pubs, batches⟩ ∧
        pubs.length = batches.length ∧
        ((pubs.map Prod.snd).getLast?).getD res =
          List.foldl (mergeBatch idEq) res
            ((List.range' i0 batches.length).map resp) := by
  intro batches
  induction batches with
  | nil =>
    intro i0 c0 res
    exact ⟨[], rfl, rfl, rfl⟩
  | cons batch rest ih =>
    intro i0 c0 res
    obtain ⟨pubs', h1, h2, h3⟩ := ih (i0 + 1) (c0 + batch.length)
      (mergeBatch idEq res (resp i0))
    refine ⟨(pa i0 (c0 + batch.length), mergeBatch idEq res (resp i0)) :: pubs',
      ?_, ?_, ?_⟩
    · rw [runLoop]
      simp only [h1, List.length_cons, List.range'_succ, List.map_cons,
        List.foldl_cons]
    · simp [h2]
    · simp only [List.map_cons, List.length_cons, List.range'_succ,
        List.foldl_cons]
      rw [getLastD_cons]
      exact h3

/-- When the `k`-th adapter call rejects (and the calls before it
resolve), the loop stops there: exactly the first `k + 1` batches are
sent, the error message is propagated, and `k` publishes happened. -/
theorem runLoop_err (idEq : Int → JsId → Bool) (pa : Nat → Nat → Nat)
    (provider : Nat → Except String (List TranslationResult)) (msg : String) :
    ∀ (k : Nat) (batches : List (List SubtitleEntry)) (i0 c0 : Nat)
      (res : List SubtitleEntry),
      (∀ d, d < k → ∃ rs, provider (i0 + d) = .ok rs) →
      provider (i0 + k) = .error msg →
      k < batches.length →
      ∃ pubs,
        runLoop idEq pa provider batches i0 c0 res =
          .err msg ⟨pubs, batches.take (k + 1)⟩ ∧
        pubs.length = k := by
  intro k
  induction k with
  | zero =>
    intro batches i0 c0 res _ herr hk
    cases batches with
    | nil => simp at hk
    | cons batch rest =>
      refine ⟨[], ?_, rfl⟩
      rw [runLoop]
      rw [Nat.add_zero] at herr
      simp [herr]
  | succ k ih =>
    intro batches i0 c0 res hok herr hk
    cases batches with
    | nil => simp at hk
    | cons batch rest =>
      obtain ⟨rs, hrs⟩ := hok 0 (Nat.succ_pos k)
      rw [Nat.add_zero] at hrs
      obtain ⟨pubs', h1, h2⟩ := ih rest (i0 + 1) (c0 + batch.length)
        (mergeBatch idEq res rs)
        (fun d hd => by
          obtain ⟨rs', hrs'⟩ := hok (d + 1) (by omega)
          exact ⟨rs', by rw [← hrs']; congr 1; omega⟩)
        (by rw [← herr]; congr 1; omega)
        (by simpa using Nat.lt_of_succ_lt_succ (Nat.succ_lt_succ hk))
      refine ⟨(pa i0 (c0 + batch.length), mergeBatch idEq res rs) :: pubs', ?_, ?_⟩
      · rw [runLoop]
        simp only [hrs, h1, List.take_succ_cons]
      · simp [h2]

/-- The `updateTask` callback (`src/unnamed/part_000:97-99`,
`src/App.tsx:102-104`): map over the task list, merging the update
into the task whose id matches.  Here the update is an arbitrary
function of the current task. -/
def updateTaskIn (ts : List FileTask) (tid : String)
    (f : FileTask → FileTask) : List FileTask :=
  ts.map fun t => if t.id == tid then f t else t

/-- The queue's state: the task list and the single in-flight flag
`isGlobalProcessing`. -/
structure QueueState where
  tasks : List FileTask
  isGlobalProcessing : Bool
deriving DecidableEq, Repr

/-- `processQueue` (`src/unnamed/part_000:159-175`,
`src/App.tsx:150-158`): a no-op while `isGlobalProcessing` is set;
otherwise select the tasks whose status is not Completed, run each of
them sequentially — any exception is caught and only logged — and
clear the flag.  `runTask` is the net effect of one
`processSingleTask` run on the task it processes (its rethrown
exception does not alter state, so it is dropped here). -/
def processQueue (runTask : FileTask → FileTask) (st : QueueState) :
    QueueState :=
  if st.isGlobalProcessing then st
  else
    ⟨(st.tasks.filter fun t => !(t.status == ProcessingStatus.COMPLETED)).foldl
        (fun acc p => updateTaskIn acc p.id runTask) st.tasks,
      false⟩

/-- Sequentially updating each listed task by id equals a single map,
when ids are unique and the update preserves ids. -/
theorem foldl_updateTaskIn_eq_map (runTask : FileTask → FileTask)
    (hpres : ∀ t, (runTask t).id = t.id) :
    ∀ (ps ts : List FileTask),
      (ts.map FileTask.id).Nodup →
      (ps.map FileTask.id).Nodup →
      ps.foldl (fun acc p => updateTaskIn acc p.id runTask) ts =
        ts.map (fun t =>
          if t.id ∈ ps.map FileTask.id then runTask t else t) := by
  intro ps
  induction ps with
  | nil =>
    intro ts _ _
    simp
  | cons p ps' ih =>
    intro ts hts hps
    simp only [List.map_cons, List.nodup_cons] at hps
    simp only [List.foldl_cons]
    have hg : updateTaskIn ts p.id runTask =
        ts.map (fun t => if t.id == p.id then runTask t else t) := rfl
    have hts' : ((updateTaskIn ts p.id runTask).map FileTask.id).Nodup := by
      have : (updateTaskIn ts p.id runTask).map FileTask.id =
          ts.map FileTask.id := by
        rw [hg, List.map_map]
        refine List.map_congr_left (fun t _ => ?_)
        simp only [Function.comp]
        split
        · exact hpres t
        · rfl
      rw [this]
      exact hts
    rw [ih (updateTaskIn ts p.id runTask) hts' hps.2, hg, List.map_map]
    refine List.map_congr_left (fun t _ => ?_)
    simp only [Function.comp, List.map_cons, List.mem_cons]
    by_cases h : t.id = p.id
    · have hgt : (if (t.id == p.id) = true then runTask t else t) = runTask t :=
        if_pos (by simp [h])
      rw [hgt, hpres t, h, if_neg hps.1, if_pos (Or.inl rfl)]
    · have hgt : (if (t.id == p.id) = true then runTask t else t) = t :=
        if_neg (by simp [h])
      rw [hgt]
      by_cases h2 : t.id ∈ ps'.map FileTask.id
      · rw [if_pos h2, if_pos (Or.inr h2)]
      · rw [if_neg h2, if_neg (fun hc => hc.elim h h2)]

/-- With distinct task ids and an id-preserving run effect,
`processQueue` on an idle flag is exactly: run every not-Completed
task once, keep every Completed task untouched, clear the flag. -/
theorem processQueue_char (runTask : FileTask → FileTask)
    (hpres : ∀ t, (runTask t).id = t.id) (st : QueueState)
    (hnodup : (st.tasks.map FileTask.id).Nodup)
    (hflag : st.isGlobalProcessing = false) :
    processQueue runTask st =
      ⟨st.tasks.map (fun t =>
          if t.status = ProcessingStatus.COMPLETED then t else runTask t),
        false⟩ := by
  rw [processQueue, if_neg (by rw [hflag]; exact Bool.false_ne_true)]
  have hinj := List.inj_on_of_nodup_map hnodup
  have hpsnodup :
      (((st.tasks.filter
          fun t => !(t.status == ProcessingStatus.COMPLETED)).map
            FileTask.id)).Nodup :=
    ((List.filter_sublist st.tasks).map FileTask.id).nodup hnodup
  rw [foldl_updateTaskIn_eq_map runTask hpres _ st.tasks hnodup hpsnodup]
  congr 1
  refine List.map_congr_left (fun t ht => ?_)
  by_cases h : t.status = ProcessingStatus.COMPLETED
  · rw [if_pos h, if_neg]
    intro hc
    obtain ⟨p, hp, hpid⟩ := List.mem_map.mp hc
    obtain ⟨hpmem, hppred⟩ := List.mem_filter.mp hp
    have : p = t := hinj hpmem ht hpid
    rw [this] at hppred
    simp [h] at hppred
  · rw [if_neg h, if_pos]
    exact List.mem_map.mpr ⟨t, List.mem_filter.mpr ⟨ht, by simp [h]⟩, rfl⟩

/-- The observable shape of one provider HTTP request: endpoint,
credential material placed in the request, model name, the ids of the
entries in the payload, and the style instruction embedded in it. -/
structure HttpRequest where
  url : String
  authorization : String
  model : String
  inputIds : List Int
  styleInstruction : String
deriving DecidableEq, Repr

/-- The request `translateSubtitleBatch` of
`src/services/openaiService.ts:29-44` constructs: one POST to the chat
completions endpoint with header `Authorization: Bearer <apiKey>` and
a payload listing the batch's `{id, text}` pairs. -/
def openaiRequest (subtitles : List SubtitleEntry)
    (customPrompt apiKey : String) : HttpRequest :=
  { url := "https://api.openai.com/v1/chat/completions"
    authorization := "Bearer " ++ apiKey
    model := "gpt-4o-mini"
    inputIds := subtitles.map SubtitleEntry.id
    styleInstruction := customPrompt }

/-- The network requests one call of the OpenAI
`translateSubtitleBatch` issues before interpreting any response
(`src/services/openaiService.ts:28-49`): the `fetch` is unconditional
— the function body contains no credential check, so exactly one
request is issued for every credential value, the empty string
included. -/
def openaiRequests (subtitles : List SubtitleEntry)
    (customPrompt apiKey : String) : List HttpRequest :=
  [openaiRequest subtitles customPrompt apiKey]

/-- The request `translateSubtitleBatch` of
`src/services/geminiService.ts:11-49` constructs:
`new GoogleGenAI({ apiKey: apiKey || process.env.API_KEY || '' })`
followed by one `generateContent` call on `gemini-2.5-flash`. -/
def geminiRequest (subtitles : List SubtitleEntry)
    (customPrompt apiKey envApiKey : String) : HttpRequest :=
  { url := "generateContent"
    authorization := if apiKey == "" then envApiKey else apiKey
    model := "gemini-2.5-flash"
    inputIds := subtitles.map SubtitleEntry.id
    styleInstruction := customPrompt }

/-- The network requests one call of the Gemini
`translateSubtitleBatch` issues before interpreting any response:
unconditional, exactly one for every credential value. -/
def geminiRequests (subtitles : List SubtitleEntry)
    (customPrompt apiKey envApiKey : String) : List HttpRequest :=
  [geminiRequest subtitles customPrompt apiKey envApiKey]

/-- `src/unnamed/part_000:44`. -/
def part000EmptyFileMsg : String := "File không có dữ liệu phụ đề"

/-- `src/unnamed/part_000:63`: fallback when the thrown parse error
has an empty message. -/
def part000ParseFallbackMsg : String := "Định dạng file không hợp lệ"

/-- Task creation of `processFiles` in `src/unnamed/part_000:37-68`:
parse the decoded text (the parse outcome is given as an `Except`
carrying the thrown error's message), throw on a zero-entry parse, and
resolve an Idle task on success or an Error task with zero entries on
any throw. -/
def mkTask_part000 (newId fileName : String)
    (parsed : Except String (List SubtitleEntry)) : FileTask :=
  match parsed with
  | .ok entries =>
    if entries.length == 0 then
      ⟨newId, fileName, [], [], "", .ERROR, 0, some part000EmptyFileMsg⟩
    else
      ⟨newId, fileName, entries, [], "", .IDLE, 0, none⟩
  | .error msg =>
    ⟨newId, fileName, [], [], "", .ERROR, 0,
      some (if msg == "" then part000ParseFallbackMsg else msg)⟩

/-- Task creation of `processFiles` in the first `App.tsx` variant
(`src/App.tsx:67-98`): same shape, but WITHOUT the zero-entry check —
a file that parses to zero entries resolves to an Idle task. -/
def mkTask_appV1 (newId fileName : String)
    (parsed : Except String (List SubtitleEntry)) : FileTask :=
  match parsed with
  | .ok entries => ⟨newId, fileName, entries, [], "", .IDLE, 0, none⟩
  | .error msg => ⟨newId, fileName, [], [], "", .ERROR, 0, some msg⟩

/-- `Promise.all(newTasks).then(resolved => setTasks(prev => [...prev,
...resolved]))` (`src/unnamed/part_000:71-73`, `src/App.tsx:99`): the
resolved tasks — one per input file, in input order, since
`Promise.all` preserves order — are appended after the existing queue.
Each input file is given as `(fresh id, file name, parse outcome)`. -/
def enqueueFiles
    (mk : String → String → Except String (List SubtitleEntry) → FileTask)
    (files : List (String × String × Except String (List SubtitleEntry)))
    (prev : List FileTask) : List FileTask :=
  prev ++ files.map (fun f => mk f.1 f.2.1 f.2.2)

/-- Full characterization of a `part_000` run in which every adapter
call resolves. -/
theorem part000_run_ok (apiKey envApiKey : String)
    (resp : Nat → List TranslationResult) (task : FileTask)
    (hne : task.originalSubs ≠ []) (hkey : apiKey ≠ "") :
    ∃ pubs : List (Nat × List SubtitleEntry),
      processSingleTask_part000 apiKey envApiKey (fun i => .ok (resp i)) task =
        { task := { task with
            status := .COMPLETED, progress := 100, error := none,
            processedSubs := List.foldl (mergeBatch looseEqId) task.originalSubs
              ((List.range' 0 (chunkList 30 task.originalSubs).length).map resp) }
          publishedProgress := 2 :: pubs.map Prod.fst ++ [100]
          publishedSubs := pubs.map Prod.snd
          calls := chunkList 30 task.originalSubs
          threw := none } ∧
      pubs.length = (chunkList 30 task.originalSubs).length := by
  have hlen : (task.originalSubs.length == 0) = false := by
    simp [List.length_eq_zero, hne]
  have hkeyb : (apiKey == "") = false := by simp [hkey]
  obtain ⟨pubs, h1, h2, h3⟩ := runLoop_ok looseEqId
    (fun _ c => 5 + 94 * c / task.originalSubs.length) resp
    (chunkList 30 task.originalSubs) 0 0 task.originalSubs
  refine ⟨pubs, ?_, h2⟩
  simp only [processSingleTask_part000, hlen, hkeyb, Bool.false_eq_true,
    if_false, h1]

/-- Full characterization of a `part_000` run whose `k`-th adapter
call rejects. -/
theorem part000_run_err (apiKey envApiKey : String)
    (provider : Nat → Except String (List TranslationResult)) (msg : String)
    (task : FileTask) (k : Nat)
    (hne : task.originalSubs ≠ []) (hkey : apiKey ≠ "")
    (hok : ∀ d, d < k → ∃ rs, provider d = .ok rs)
    (herr : provider k = .error msg)
    (hk : k < (chunkList 30 task.originalSubs).length) :
    ∃ pubs : List (Nat × List SubtitleEntry),
      processSingleTask_part000 apiKey envApiKey provider task =
        { task := { task with
            status := .ERROR
            progress := ((pubs.map Prod.fst).getLast?).getD 2
            error := some (if msg == "" then part000FallbackErrorMsg else msg)
            processedSubs := ((pubs.map Prod.snd).getLast?).getD task.processedSubs }
          publishedProgress := 2 :: pubs.map Prod.fst
          publishedSubs := pubs.map Prod.snd
          calls := (chunkList 30 task.originalSubs).take (k + 1)
          threw := some msg } ∧
      pubs.length = k := by
  have hlen : (task.originalSubs.length == 0) = false := by
    simp [List.length_eq_zero, hne]
  have hkeyb : (apiKey == "") = false := by simp [hkey]
  obtain ⟨pubs, h1, h2⟩ := runLoop_err looseEqId
    (fun _ c => 5 + 94 * c / task.originalSubs.length) provider msg k
    (chunkList 30 task.originalSubs) 0 0 task.originalSubs
    (fun d hd => by simpa using hok d hd) (by simpa using herr) hk
  refine ⟨pubs, ?_, h2⟩
  simp only [processSingleTask_part000, hlen, hkeyb, Bool.false_eq_true,
    if_false, h1]

/-- C1: for every non-empty entry sequence and the run's fixed batch
size B (30 in `part_000`, 40 in the second `App.tsx` variant), a run
in which every adapter call resolves makes exactly `ceil(n / B)`
provider calls; the call trace equals the chunked partition — each
batch is sent exactly once, in original order, with no automatic retry
— and concatenating the batches reconstructs the entry sequence with
no omission, overlap or duplicate. -/
theorem C1_batch_partition_and_call_count
    (task : FileTask) (hne : task.originalSubs ≠ [])
    (apiKey envApiKey apiKeyGemini : String) (hkey : apiKey ≠ "")
    (resp : Nat → List TranslationResult) :
    (processSingleTask_part000 apiKey envApiKey
        (fun i => .ok (resp i)) task).calls = chunkList 30 task.originalSubs ∧
    (processSingleTask_appV2 .openai apiKey apiKeyGemini
        (fun i => .ok (resp i)) task).calls = chunkList 40 task.originalSubs ∧
    (chunkList 30 task.originalSubs).length =
        (task.originalSubs.length + 30 - 1) / 30 ∧
    (chunkList 40 task.originalSubs).length =
        (task.originalSubs.length + 40 - 1) / 40 ∧
    (chunkList 30 task.originalSubs).flatten = task.originalSubs ∧
    (chunkList 40 task.originalSubs).flatten = task.originalSubs := by
  obtain ⟨pubs, h1, _⟩ := part000_run_ok apiKey envApiKey resp task hne hkey
  refine ⟨by rw [h1], ?_, chunkList_length 30 (by omega) _,
    chunkList_length 40 (by omega) _, chunkList_join 30 _, chunkList_join 40 _⟩
  have hlen : (task.originalSubs.length == 0) = false := by
    simp [List.length_eq_zero, hne]
  have hkeyb : (apiKey == "") = false := by simp [hkey]
  obtain ⟨pubs2, g1, g2, g3⟩ := runLoop_ok strictEqId
    (fun i _ => (i + 1) * 100 / (chunkList 40 task.originalSubs).length) resp
    (chunkList 40 task.originalSubs) 0 0 task.originalSubs
  simp only [processSingleTask_appV2, hlen, hkeyb, Bool.false_eq_true,
    if_false, g1]

/-- A small concrete task used by the witnesses. -/
def sampleTask : FileTask :=
  { id := "t1", fileName := "a.srt"
    originalSubs :=
      [⟨1, "00:00:01 --> 00:00:02", "Hello"⟩,
       ⟨2, "00:00:03 --> 00:00:04", "World"⟩,
       ⟨3, "00:00:05 --> 00:00:06", "!"⟩]
    processedSubs := [], prompt := "", status := .IDLE, progress := 0
    error := none }

theorem C1_witness :
    (processSingleTask_part000 "k" "" (fun _ => .ok []) sampleTask).calls =
        chunkList 30 sampleTask.originalSubs ∧
    (processSingleTask_appV2 .openai "k" ""
        (fun _ => .ok []) sampleTask).calls = chunkList 40 sampleTask.originalSubs ∧
    (chunkList 30 sampleTask.originalSubs).length =
        (sampleTask.originalSubs.length + 30 - 1) / 30 ∧
    (chunkList 40 sampleTask.originalSubs).length =
        (sampleTask.originalSubs.length + 40 - 1) / 40 ∧
    (chunkList 30 sampleTask.originalSubs).flatten = sampleTask.originalSubs ∧
    (chunkList 40 sampleTask.originalSubs).flatten = sampleTask.originalSubs :=
  C1_batch_partition_and_call_count sampleTask (by decide) "k" "" ""
    (by decide) (fun _ => [])

/-- Auxiliary: the last element of a list is a member. -/
theorem mem_of_getLast?_eq {l : List α} {a : α} (h : l.getLast? = some a) :
    a ∈ l := by
  obtain ⟨hne, rfl⟩ := List.mem_getLast?_eq_getLast
    (by rw [h]; exact Option.mem_some_self a)
  exact List.getLast_mem hne

/-- Merging batch responses one after the other equals a single merge
over the concatenation of all responses. -/
theorem foldl_mergeBatch_flatten (idEq : Int → JsId → Bool)
    (res : List SubtitleEntry) (rss : List (List TranslationResult)) :
    rss.foldl (mergeBatch idEq) res = mergeBatch idEq res rss.flatten := by
  induction rss generalizing res with
  | nil => rfl
  | cons rs rss ih =>
    simp only [List.foldl_cons, List.flatten_cons, ih, mergeBatch,
      List.foldl_append]

/-- Every entry is either left with its original text or carries the
translated text of a returned result whose id matches it. -/
theorem mergedSpec_text_cases (idEq : Int → JsId → Bool)
    (ts : List TranslationResult) (e : SubtitleEntry) :
    (mergedSpec idEq ts e).text = e.text ∨
      ∃ r ∈ ts, idEq e.id r.id = true ∧
        (mergedSpec idEq ts e).text = r.translatedText := by
  rw [mergedSpec]
  cases hl : (ts.filter (fun r => idEq e.id r.id)).getLast? with
  | none => exact Or.inl rfl
  | some r =>
    have hmem := mem_of_getLast?_eq hl
    refine Or.inr ⟨r, List.mem_of_mem_filter hmem, ?_, rfl⟩
    simpa using List.of_mem_filter hmem

/-- C2: a `part_000` run in which every adapter call resolves ends
with status Completed, progress 100, and a `processedSubs` that has
exactly the ids and time spans of `originalSubs` in order, where each
entry's text is the translated text of the (last) returned result
bearing its id, or the untouched original text when no result with its
id arrived.  `allResults` abbreviates the concatenation of all batch
responses of the run. -/
theorem C2_success_postcondition
    (task : FileTask) (hne : task.originalSubs ≠ [])
    (hnodup : (task.originalSubs.map SubtitleEntry.id).Nodup)
    (apiKey envApiKey : String) (hkey : apiKey ≠ "")
    (resp : Nat → List TranslationResult) :
    (processSingleTask_part000 apiKey envApiKey
        (fun i => .ok (resp i)) task).task.status = .COMPLETED ∧
    (processSingleTask_part000 apiKey envApiKey
        (fun i => .ok (resp i)) task).task.progress = 100 ∧
    (processSingleTask_part000 apiKey envApiKey
        (fun i => .ok (resp i)) task).task.processedSubs =
      task.originalSubs.map (mergedSpec looseEqId
        (((List.range' 0 (chunkList 30 task.originalSubs).length).map
            resp).flatten)) ∧
    (processSingleTask_part000 apiKey envApiKey
        (fun i => .ok (resp i)) task).task.processedSubs.length =
      task.originalSubs.length ∧
    (processSingleTask_part000 apiKey envApiKey
        (fun i => .ok (resp i)) task).task.processedSubs.map SubtitleEntry.id =
      task.originalSubs.map SubtitleEntry.id ∧
    (processSingleTask_part000 apiKey envApiKey
        (fun i => .ok (resp i)) task).task.processedSubs.map SubtitleEntry.time =
      task.originalSubs.map SubtitleEntry.time ∧
    (∀ e ∈ task.originalSubs,
      (mergedSpec looseEqId
          (((List.range' 0 (chunkList 30 task.originalSubs).length).map
              resp).flatten) e).text = e.text ∨
        ∃ r ∈ ((List.range' 0 (chunkList 30 task.originalSubs).length).map
            resp).flatten,
          looseEqId e.id r.id = true ∧
          (mergedSpec looseEqId
            (((List.range' 0 (chunkList 30 task.originalSubs).length).map
                resp).flatten) e).text = r.translatedText) := by
  obtain ⟨pubs, h1, _⟩ := part000_run_ok apiKey envApiKey resp task hne hkey
  have hmerge :
      List.foldl (mergeBatch looseEqId) task.originalSubs
          ((List.range' 0 (chunkList 30 task.originalSubs).length).map resp) =
        task.originalSubs.map (mergedSpec looseEqId
          (((List.range' 0 (chunkList 30 task.originalSubs).length).map
              resp).flatten)) := by
    rw [foldl_mergeBatch_flatten,
      mergeBatch_eq_map looseEqId looseEqId_functional task.originalSubs hnodup]
  refine ⟨by rw [h1], by rw [h1], by rw [h1]; exact hmerge, ?_, ?_, ?_,
    fun e _ => mergedSpec_text_cases looseEqId _ e⟩
  · rw [h1]
    simp only [hmerge, List.length_map]
  · rw [h1]
    simp only [hmerge, List.map_map]
    exact List.map_congr_left fun e _ =>
      (mergedSpec_id_time looseEqId _ e).1
  · rw [h1]
    simp only [hmerge, List.map_map]
    exact List.map_congr_left fun e _ =>
      (mergedSpec_id_time looseEqId _ e).2

theorem C2_witness :
    (processSingleTask_part000 "k" ""
        (fun _ => .ok [⟨.num 1, "Xin chào"⟩]) sampleTask).task.status =
      ProcessingStatus.COMPLETED ∧
    (processSingleTask_part000 "k" ""
        (fun _ => .ok [⟨.num 1, "Xin chào"⟩]) sampleTask).task.progress = 100 ∧
    (processSingleTask_part000 "k" ""
        (fun _ => .ok [⟨.num 1, "Xin chào"⟩]) sampleTask).task.processedSubs =
      sampleTask.originalSubs.map (mergedSpec looseEqId
        (((List.range' 0 (chunkList 30 sampleTask.originalSubs).length).map
            (fun _ => [⟨.num 1, "Xin chào"⟩])).flatten)) ∧
    (processSingleTask_part000 "k" ""
        (fun _ => .ok [⟨.num 1, "Xin chào"⟩]) sampleTask).task.processedSubs.length =
      sampleTask.originalSubs.length ∧
    (processSingleTask_part000 "k" ""
        (fun _ => .ok [⟨.num 1, "Xin chào"⟩]) sampleTask).task.processedSubs.map
        SubtitleEntry.id =
      sampleTask.originalSubs.map SubtitleEntry.id ∧
    (processSingleTask_part000 "k" ""
        (fun _ => .ok [⟨.num 1, "Xin chào"⟩]) sampleTask).task.processedSubs.map
        SubtitleEntry.time =
      sampleTask.originalSubs.map SubtitleEntry.time ∧
    ((mergedSpec looseEqId
        (((List.range' 0 (chunkList 30 sampleTask.originalSubs).length).map
            (fun _ => [⟨.num 1, "Xin chào"⟩])).flatten)
        (⟨1, "00:00:01 --> 00:00:02", "Hello"⟩ : SubtitleEntry)).text =
          (⟨1, "00:00:01 --> 00:00:02", "Hello"⟩ : SubtitleEntry).text ∨
      ∃ r ∈ ((List.range' 0 (chunkList 30 sampleTask.originalSubs).length).map
          (fun _ => [(⟨.num 1, "Xin chào"⟩ : TranslationResult)])).flatten,
        looseEqId (⟨1, "00:00:01 --> 00:00:02", "Hello"⟩ : SubtitleEntry).id
            r.id = true ∧
        (mergedSpec looseEqId
          (((List.range' 0 (chunkList 30 sampleTask.originalSubs).length).map
              (fun _ => [⟨.num 1, "Xin chào"⟩])).flatten)
          (⟨1, "00:00:01 --> 00:00:02", "Hello"⟩ : SubtitleEntry)).text =
          r.translatedText) := by
  have h := C2_success_postcondition sampleTask (by decide) (by decide) "k" ""
    (by decide) (fun _ => [⟨.num 1, "Xin chào"⟩])
  exact ⟨h.1, h.2.1, h.2.2.1, h.2.2.2.1, h.2.2.2.2.1, h.2.2.2.2.2.1,
    h.2.2.2.2.2.2 ⟨1, "00:00:01 --> 00:00:02", "Hello"⟩ (by decide)⟩

/-- Concrete data refuting C3 as stated: a two-entry working copy, a
one-entry batch, and a result addressing the entry outside the batch. -/
def c3Batch : List SubtitleEntry := [⟨1, "t1", "a"⟩]

def c3WorkingCopy : List SubtitleEntry := [⟨1, "t1", "a"⟩, ⟨2, "t2", "b"⟩]

def c3Result : TranslationResult := ⟨.num 2, "X"⟩

/-- C3 counterexample: the merge step searches the WHOLE working copy
(`results.findIndex`), not the current batch, so a returned result
whose id is absent from the batch but present elsewhere in the file
does alter an entry's text: with batch `[entry 1]` and result id 2,
entry 2 of the working copy is rewritten.  This refutes the claim that
such a result leaves every entry's text unchanged. -/
theorem C3_counterexample :
    (c3Batch.all fun e => !(strictEqId e.id c3Result.id)) = true ∧
    mergeBatch strictEqId c3WorkingCopy [c3Result] =
      [⟨1, "t1", "a"⟩, ⟨2, "t2", "X"⟩] ∧
    mergeBatch strictEqId c3WorkingCopy [c3Result] ≠ c3WorkingCopy := by
  refine ⟨rfl, rfl, ?_⟩
  decide

/-- C3 amended: a returned result whose id is absent from the WORKING
COPY (the file's full entry sequence) leaves every entry's text
unchanged, and the merge — a total function — does not raise; this
holds for any id comparison, in particular for both the strict and the
loose variant. -/
theorem C3_unmatched_ids_leave_working_copy_unchanged
    (idEq : Int → JsId → Bool) (wc : List SubtitleEntry)
    (ts : List TranslationResult)
    (h : ∀ r ∈ ts, ∀ e ∈ wc, idEq e.id r.id = false) :
    mergeBatch idEq wc ts = wc := by
  induction ts with
  | nil => rfl
  | cons t ts ih =>
    have h1 : applyResult idEq wc t = wc :=
      applyResult_no_match idEq wc t
        (fun e he => h t (List.mem_cons_self _ _) e he)
    calc mergeBatch idEq wc (t :: ts)
        = mergeBatch idEq (applyResult idEq wc t) ts := rfl
      _ = mergeBatch idEq wc ts := by rw [h1]
      _ = wc := ih (fun r hr e he => h r (List.mem_cons_of_mem _ hr) e he)

theorem C3_witness :
    mergeBatch strictEqId c3WorkingCopy [⟨.num 5, "X"⟩] = c3WorkingCopy :=
  C3_unmatched_ids_leave_working_copy_unchanged strictEqId c3WorkingCopy
    [⟨.num 5, "X"⟩] (by decide)

/-- Concrete data refuting C7 as stated: entry with integer id 3 and a
provider result whose id is the string `"3"`. -/
def c7Entry : SubtitleEntry := ⟨3, "t", "hello"⟩

def c7Result : TranslationResult := ⟨.str "3", "xin chào"⟩

/-- C7 counterexample: the `part_000` merge uses LOOSE equality
(`r.id == tSub.id`, `src/unnamed/part_000:131-132`), under which the
string id `"3"` DOES match the entry with integer id 3, so the entry's
text is overwritten rather than the result being silently ignored.
This refutes the claim that the merge step always compares ids
type-strictly. -/
theorem C7_counterexample :
    looseEqId c7Entry.id c7Result.id = true ∧
    mergeBatch looseEqId [c7Entry] [c7Result] = [⟨3, "t", "xin chào"⟩] ∧
    mergeBatch looseEqId [c7Entry] [c7Result] ≠ [c7Entry] := by
  refine ⟨rfl, rfl, ?_⟩
  decide

/-- C7 amended: in the `App.tsx` merge steps the comparison is strict
(`===`), so a result whose id is any string — `"3"` included — never
matches and is silently ignored, and a matching result overwrites only
the entry's text, leaving ids and time spans untouched; the `part_000`
merge instead uses loose equality (`==`), under which the string id
`"3"` does match integer id 3 (ids and time spans still untouched). -/
theorem C7_strict_ignores_string_ids_loose_coerces :
    (∀ (l : List SubtitleEntry) (s txt : String),
      mergeBatch strictEqId l [⟨.str s, txt⟩] = l) ∧
    (∀ (l : List SubtitleEntry) (t : TranslationResult),
      (applyResult strictEqId l t).map (fun e => (e.id, e.time)) =
        l.map (fun e => (e.id, e.time)) ∧
      (applyResult looseEqId l t).map (fun e => (e.id, e.time)) =
        l.map (fun e => (e.id, e.time))) ∧
    looseEqId 3 (.str "3") = true ∧
    strictEqId 3 (.str "3") = false := by
  refine ⟨?_, ?_, rfl, rfl⟩
  · intro l s txt
    calc mergeBatch strictEqId l [⟨.str s, txt⟩]
        = applyResult strictEqId l ⟨.str s, txt⟩ := rfl
      _ = l := applyResult_no_match strictEqId l _ (fun e _ => rfl)
  · intro l t
    exact ⟨applyResult_map_idTime strictEqId l t,
      applyResult_map_idTime looseEqId l t⟩

/-- A Completed task and an Error task used by several witnesses. -/
def doneTask : FileTask :=
  { id := "d1", fileName := "done.srt"
    originalSubs := [⟨1, "00", "x"⟩], processedSubs := [⟨1, "00", "y"⟩]
    prompt := "", status := .COMPLETED, progress := 100, error := none }

def failedTask : FileTask :=
  { id := "f1", fileName := "failed.srt"
    originalSubs := [⟨1, "00", "x"⟩], processedSubs := []
    prompt := "", status := .ERROR, progress := 2, error := some "boom" }

/-- A one-entry task: the smallest input on which the first `App.tsx`
variant's progress formula overflows. -/
def oneEntryTask : FileTask :=
  { id := "o1", fileName := "one.srt"
    originalSubs := [⟨1, "00:00:01 --> 00:00:02", "hi"⟩]
    processedSubs := [], prompt := "", status := .IDLE, progress := 0
    error := none }

/-- C4 evidence: the first `App.tsx` variant publishes
`Math.floor(((i + BATCH_SIZE) / total) * 100)` (`src/App.tsx:138`),
which exceeds 100 whenever the last batch is shorter than
`BATCH_SIZE`.  On a one-entry file the run publishes the progress
sequence `[0, 4000, 100]`: the mid-run value 4000 is far outside
`[0, 100]` and the sequence then DECREASES to the terminal 100,
contradicting the claimed invariant (which the `part_000` variant's
formula `5 + floor(94 * completed / total)` does satisfy). -/
theorem C4_appV1_progress_overflow :
    (processSingleTask_appV1 .openai "k" "" (fun _ => .ok [])
        oneEntryTask).publishedProgress = [0, 4000, 100] ∧
    ¬ ((processSingleTask_appV1 .openai "k" "" (fun _ => .ok [])
        oneEntryTask).publishedProgress.all (fun p => p ≤ 100)) = true := by
  refine ⟨rfl, ?_⟩
  decide

/-- C5: when the `k`-th adapter call of a `part_000` run rejects with
a non-empty message, the task ends in status Error carrying exactly
that message, the failing batch is the last one sent (no later batch
is attempted: exactly `k + 1` calls), the final progress equals the
last published progress value, the error is rethrown to the caller,
and a queue holding this failed task and another pending task still
processes the other task (the queue maps every not-Completed task
through its run, regardless of earlier failures). -/
theorem C5_failure_postcondition_and_queue_continues
    (task : FileTask) (hne : task.originalSubs ≠ [])
    (apiKey envApiKey : String) (hkey : apiKey ≠ "")
    (provider : Nat → Except String (List TranslationResult))
    (msg : String) (hmsg : msg ≠ "") (k : Nat)
    (hok : ∀ d, d < k → ∃ rs, provider d = .ok rs)
    (herr : provider k = .error msg)
    (hk : k < (chunkList 30 task.originalSubs).length) :
    (processSingleTask_part000 apiKey envApiKey provider task).task.status =
        .ERROR ∧
    (processSingleTask_part000 apiKey envApiKey provider task).task.error =
        some msg ∧
    (processSingleTask_part000 apiKey envApiKey provider task).threw =
        some msg ∧
    (processSingleTask_part000 apiKey envApiKey provider task).calls =
        (chunkList 30 task.originalSubs).take (k + 1) ∧
    (processSingleTask_part000 apiKey envApiKey provider task).calls.length =
        k + 1 ∧
    (processSingleTask_part000 apiKey envApiKey
        provider task).publishedProgress.getLast? =
      some (processSingleTask_part000 apiKey envApiKey
        provider task).task.progress ∧
    (∀ (runTask : FileTask → FileTask), (∀ t, (runTask t).id = t.id) →
      ∀ ta tb : FileTask, ta.id ≠ tb.id →
        ta.status ≠ .COMPLETED → tb.status ≠ .COMPLETED →
        (processQueue runTask ⟨[ta, tb], false⟩).tasks =
          [runTask ta, runTask tb]) := by
  obtain ⟨pubs, h1, h2⟩ := part000_run_err apiKey envApiKey provider msg task k
    hne hkey hok herr hk
  have hmsgb : (msg == "") = false := by simp [hmsg]
  refine ⟨by rw [h1], by rw [h1]; simp [hmsgb], by rw [h1], by rw [h1], ?_, ?_,
    ?_⟩
  · rw [h1]
    simp only [List.length_take]
    omega
  · rw [h1]
    simp only
    rw [getLast?_cons_eq]
  · intro runTask hpres ta tb hid hta htb
    have hchar := processQueue_char runTask hpres ⟨[ta, tb], false⟩
      (by simp [List.nodup_cons, hid]) rfl
    rw [hchar]
    simp [hta, htb]

theorem C5_witness :
    (processSingleTask_part000 "k" "" (fun _ => .error "rate limited")
        sampleTask).task.status = ProcessingStatus.ERROR ∧
    (processSingleTask_part000 "k" "" (fun _ => .error "rate limited")
        sampleTask).task.error = some "rate limited" ∧
    (processSingleTask_part000 "k" "" (fun _ => .error "rate limited")
        sampleTask).threw = some "rate limited" ∧
    (processSingleTask_part000 "k" "" (fun _ => .error "rate limited")
        sampleTask).calls = (chunkList 30 sampleTask.originalSubs).take (0 + 1) ∧
    (processSingleTask_part000 "k" "" (fun _ => .error "rate limited")
        sampleTask).calls.length = 0 + 1 ∧
    (processSingleTask_part000 "k" "" (fun _ => .error "rate limited")
        sampleTask).publishedProgress.getLast? =
      some (processSingleTask_part000 "k" "" (fun _ => .error "rate limited")
        sampleTask).task.progress ∧
    (processQueue (fun t => { t with status := ProcessingStatus.COMPLETED })
        ⟨[failedTask, oneEntryTask], false⟩).tasks =
      [{ failedTask with status := ProcessingStatus.COMPLETED },
       { oneEntryTask with status := ProcessingStatus.COMPLETED }] := by
  have h := C5_failure_postcondition_and_queue_continues sampleTask (by decide)
    "k" "" (by decide) (fun _ => .error "rate limited") "rate limited"
    (by decide) 0 (fun d hd => absurd hd (Nat.not_lt_zero d)) rfl (by decide)
  exact ⟨h.1, h.2.1, h.2.2.1, h.2.2.2.1, h.2.2.2.2.1, h.2.2.2.2.2.1,
    h.2.2.2.2.2.2 (fun t => { t with status := ProcessingStatus.COMPLETED })
      (fun _ => rfl) failedTask oneEntryTask (by decide) (by decide)
      (by decide)⟩

/-- C6: `processQueue` is a no-op while a run is in flight; on an idle
flag — given distinct task ids and an id-preserving run effect — it
maps every task whose status is not Completed (Idle and Error alike)
through exactly one run, leaves every Completed task (its
`processedSubs` included) completely unchanged, and clears the flag. -/
theorem C6_runQueue_retry_policy
    (runTask : FileTask → FileTask) (hpres : ∀ t, (runTask t).id = t.id)
    (st : QueueState) (hnodup : (st.tasks.map FileTask.id).Nodup) :
    (st.isGlobalProcessing = true → processQueue runTask st = st) ∧
    (st.isGlobalProcessing = false →
      processQueue runTask st =
        ⟨st.tasks.map (fun t =>
            if t.status = ProcessingStatus.COMPLETED then t else runTask t),
          false⟩) := by
  constructor
  · intro h
    rw [processQueue, if_pos h]
  · intro h
    exact processQueue_char runTask hpres st hnodup h

theorem C6_witness :
    processQueue (fun t => { t with status := ProcessingStatus.COMPLETED })
        ⟨[doneTask, failedTask], true⟩ = ⟨[doneTask, failedTask], true⟩ ∧
    processQueue (fun t => { t with status := ProcessingStatus.COMPLETED })
        ⟨[doneTask, failedTask], false⟩ =
      ⟨[doneTask, failedTask].map (fun t =>
          if t.status = ProcessingStatus.COMPLETED then t
          else { t with status := ProcessingStatus.COMPLETED }),
        false⟩ :=
  ⟨(C6_runQueue_retry_policy
      (fun t => { t with status := ProcessingStatus.COMPLETED }) (fun _ => rfl)
      ⟨[doneTask, failedTask], true⟩ (by decide)).1 rfl,
   (C6_runQueue_retry_policy
      (fun t => { t with status := ProcessingStatus.COMPLETED }) (fun _ => rfl)
      ⟨[doneTask, failedTask], false⟩ (by decide)).2 rfl⟩

/-- C8 counterexample: with an empty credential string the OpenAI
adapter still issues its (single) HTTP request — the function body of
`translateSubtitleBatch` contains no credential check before `fetch`,
it simply sends `Authorization: Bearer ` with nothing after the
scheme.  This refutes the claim that the adapter fails fast with no
HTTP call on empty credentials. -/
theorem C8_counterexample :
    (openaiRequests
      [⟨1, "00:00:01 --> 00:00:02", "Hello"⟩] "" "").length = 1 ∧
    openaiRequests [⟨1, "00:00:01 --> 00:00:02", "Hello"⟩] "" "" =
      [openaiRequest [⟨1, "00:00:01 --> 00:00:02", "Hello"⟩] "" ""] ∧
    (openaiRequest
      [⟨1, "00:00:01 --> 00:00:02", "Hello"⟩] "" "").authorization =
        "Bearer " ∧
    (geminiRequests
      [⟨1, "00:00:01 --> 00:00:02", "Hello"⟩] "" "" "").length = 1 := by
  refine ⟨rfl, rfl, ?_, rfl⟩
  decide

/-- C8 amended: the empty-credential fail-fast check lives in the
Batch Orchestrator, not in the adapter: with an empty active
credential, `processSingleTask` records an authentication error on the
task and performs ZERO adapter invocations (`part_000` returns before
the loop; the first `App.tsx` variant throws inside the loop before
the first adapter call and rethrows); the adapters themselves issue
their one HTTP request unconditionally, whatever the credential
value. -/
theorem C8_orchestrator_guards_empty_credentials
    (task : FileTask) (hne : task.originalSubs ≠ [])
    (provider : Nat → Except String (List TranslationResult))
    (geminiKey : String) :
    (processSingleTask_part000 "" "" provider task).task.status = .ERROR ∧
    (processSingleTask_part000 "" "" provider task).task.error =
        some part000KeyErrorMsg ∧
    (processSingleTask_part000 "" "" provider task).calls = [] ∧
    (processSingleTask_appV1 .openai "" geminiKey provider task).task.status =
        .ERROR ∧
    (processSingleTask_appV1 .openai "" geminiKey provider task).task.error =
        some (appV1KeyErrorMsg .openai) ∧
    (processSingleTask_appV1 .openai "" geminiKey provider task).calls = [] ∧
    (processSingleTask_appV1 .openai "" geminiKey provider task).threw =
        some (appV1KeyErrorMsg .openai) ∧
    (∀ (subs : List SubtitleEntry) (prompt key : String),
      openaiRequests subs prompt key = [openaiRequest subs prompt key]) ∧
    (∀ (subs : List SubtitleEntry) (prompt key envKey : String),
      geminiRequests subs prompt key envKey =
        [geminiRequest subs prompt key envKey]) := by
  have hlen : (task.originalSubs.length == 0) = false := by
    simp [List.length_eq_zero, hne]
  refine ⟨?_, ?_, ?_, ?_, ?_, ?_, ?_, fun _ _ _ => rfl, fun _ _ _ _ => rfl⟩ <;>
    simp [processSingleTask_part000, processSingleTask_appV1, hlen]

theorem C8_witness :
    (processSingleTask_part000 "" ""
        (fun _ => .ok []) sampleTask).task.status = ProcessingStatus.ERROR ∧
    (processSingleTask_part000 "" "" (fun _ => .ok []) sampleTask).task.error =
        some part000KeyErrorMsg ∧
    (processSingleTask_part000 "" "" (fun _ => .ok []) sampleTask).calls = [] ∧
    (processSingleTask_appV1 .openai "" "g"
        (fun _ => .ok []) sampleTask).task.status = ProcessingStatus.ERROR ∧
    (processSingleTask_appV1 .openai "" "g"
        (fun _ => .ok []) sampleTask).task.error =
        some (appV1KeyErrorMsg .openai) ∧
    (processSingleTask_appV1 .openai "" "g"
        (fun _ => .ok []) sampleTask).calls = [] ∧
    (processSingleTask_appV1 .openai "" "g"
        (fun _ => .ok []) sampleTask).threw =
        some (appV1KeyErrorMsg .openai) ∧
    (∀ (subs : List SubtitleEntry) (prompt key : String),
      openaiRequests subs prompt key = [openaiRequest subs prompt key]) ∧
    (∀ (subs : List SubtitleEntry) (prompt key envKey : String),
      geminiRequests subs prompt key envKey =
        [geminiRequest subs prompt key envKey]) :=
  C8_orchestrator_guards_empty_credentials sampleTask (by decide)
    (fun _ => .ok []) "g"

/-- C9 counterexample: the first `App.tsx` variant's `processFiles`
(`src/App.tsx:67-98`) has NO zero-entry check, so a file that parses
to zero entries becomes an IDLE task, not an Error task.  This refutes
the claim that enqueueing always yields status Error when parsing
yields zero entries. -/
theorem C9_counterexample :
    (mkTask_appV1 "id1" "empty.srt" (.ok [])).status =
        ProcessingStatus.IDLE ∧
    (mkTask_appV1 "id1" "empty.srt" (.ok [])).status ≠
        ProcessingStatus.ERROR := by
  refine ⟨rfl, ?_⟩
  decide

/-- C9 amended: `enqueueFiles` creates exactly one task per input
file, appended after the existing queue in input order, never mutating
a pre-existing task (the existing queue is a prefix of the result);
with the `part_000` task creation a task is Error exactly when parsing
throws or yields zero entries and Idle (holding the parsed entries)
otherwise, while the first `App.tsx` variant marks Error only when
parsing throws — a zero-entry parse yields an Idle task there. -/
theorem C9_enqueue_additive_and_status
    (prev : List FileTask)
    (files : List (String × String × Except String (List SubtitleEntry))) :
    enqueueFiles mkTask_part000 files prev =
      prev ++ files.map (fun f => mkTask_part000 f.1 f.2.1 f.2.2) ∧
    (enqueueFiles mkTask_part000 files prev).take prev.length = prev ∧
    (enqueueFiles mkTask_part000 files prev).length =
      prev.length + files.length ∧
    (∀ (nid name : String) (entries : List SubtitleEntry), entries ≠ [] →
      (mkTask_part000 nid name (.ok entries)).status =
          ProcessingStatus.IDLE ∧
      (mkTask_part000 nid name (.ok entries)).originalSubs = entries) ∧
    (∀ nid name : String,
      (mkTask_part000 nid name (.ok [])).status = ProcessingStatus.ERROR ∧
      (mkTask_part000 nid name (.ok [])).error = some part000EmptyFileMsg) ∧
    (∀ (nid name msg : String), msg ≠ "" →
      (mkTask_part000 nid name (.error msg)).status = ProcessingStatus.ERROR ∧
      (mkTask_part000 nid name (.error msg)).error = some msg) ∧
    (∀ (nid name : String) (entries : List SubtitleEntry),
      (mkTask_appV1 nid name (.ok entries)).status =
        ProcessingStatus.IDLE) := by
  refine ⟨rfl, List.take_left _ _, by simp [enqueueFiles], ?_, ?_, ?_,
    fun _ _ _ => rfl⟩
  · intro nid name entries hne
    have hlen : (entries.length == 0) = false := by
      simp [List.length_eq_zero, hne]
    constructor <;> simp [mkTask_part000, hlen]
  · intro nid name
    constructor <;> rfl
  · intro nid name msg hmsg
    have hb : (msg == "") = false := by simp [hmsg]
    constructor <;> simp [mkTask_part000, hb]

theorem C9_witness :
    enqueueFiles mkTask_part000
        [("n1", "a.srt", .ok [⟨1, "00", "x"⟩]), ("n2", "b.srt", .error "bad")]
        [doneTask] =
      [doneTask] ++
        [("n1", "a.srt", .ok [⟨1, "00", "x"⟩]),
         ("n2", "b.srt", (.error "bad" : Except String (List SubtitleEntry)))].map
          (fun f => mkTask_part000 f.1 f.2.1 f.2.2) ∧
    (enqueueFiles mkTask_part000
        [("n1", "a.srt", .ok [⟨1, "00", "x"⟩]), ("n2", "b.srt", .error "bad")]
        [doneTask]).take [doneTask].length = [doneTask] ∧
    (enqueueFiles mkTask_part000
        [("n1", "a.srt", .ok [⟨1, "00", "x"⟩]), ("n2", "b.srt", .error "bad")]
        [doneTask]).length = [doneTask].length + 2 ∧
    (mkTask_part000 "n1" "a.srt" (.ok [⟨1, "00", "x"⟩])).status =
        ProcessingStatus.IDLE ∧
    (mkTask_part000 "n1" "a.srt"
        (.ok [⟨1, "00", "x"⟩])).originalSubs = [⟨1, "00", "x"⟩] ∧
    (mkTask_part000 "n0" "empty.srt" (.ok [])).status =
        ProcessingStatus.ERROR ∧
    (mkTask_part000 "n0" "empty.srt" (.ok [])).error =
        some part000EmptyFileMsg ∧
    (mkTask_part000 "n2" "b.srt" (.error "bad")).status =
        ProcessingStatus.ERROR ∧
    (mkTask_part000 "n2" "b.srt" (.error "bad")).error = some "bad" ∧
    (mkTask_appV1 "n1" "a.srt" (.ok [⟨1, "00", "x"⟩])).status =
        ProcessingStatus.IDLE := by
  have h := C9_enqueue_additive_and_status [doneTask]
    [("n1", "a.srt", .ok [⟨1, "00", "x"⟩]), ("n2", "b.srt", .error "bad")]
  have h4 := h.2.2.2.1 "n1" "a.srt" [⟨1, "00", "x"⟩] (by decide)
  have h5 := h.2.2.2.2.1 "n0" "empty.srt"
  have h6 := h.2.2.2.2.2.1 "n2" "b.srt" "bad" (by decide)
  exact ⟨h.1, h.2.1, h.2.2.1, h4.1, h4.2, h5.1, h5.2, h6.1, h6.2,
    h.2.2.2.2.2.2 "n1" "a.srt" [⟨1, "00", "x"⟩]⟩

/-- C10: when one batch's returned results contain several entries
with the same id, the last one in response order wins: the merge
equals the pointwise description `mergedSpec`, whose text for each
entry is the `translatedText` of the LAST matching result
(`getLast?` of the matching results) — and the merge, a total
function, never fails on duplicates.  Shown for both the strict
(`App.tsx`) and the loose (`part_000`) comparison, assuming the
file-unique entry ids of the data model. -/
theorem C10_duplicate_result_ids_last_wins
    (wc : List SubtitleEntry) (hnodup : (wc.map SubtitleEntry.id).Nodup)
    (ts : List TranslationResult) :
    mergeBatch strictEqId wc ts = wc.map (mergedSpec strictEqId ts) ∧
    mergeBatch looseEqId wc ts = wc.map (mergedSpec looseEqId ts) :=
  ⟨mergeBatch_eq_map strictEqId strictEqId_functional wc hnodup ts,
   mergeBatch_eq_map looseEqId looseEqId_functional wc hnodup ts⟩

theorem C10_witness :
    mergeBatch strictEqId [⟨1, "t", "a"⟩]
        [⟨.num 1, "first"⟩, ⟨.num 1, "second"⟩] =
      [(⟨1, "t", "a"⟩ : SubtitleEntry)].map
        (mergedSpec strictEqId [⟨.num 1, "first"⟩, ⟨.num 1, "second"⟩]) ∧
    mergeBatch looseEqId [⟨1, "t", "a"⟩]
        [⟨.num 1, "first"⟩, ⟨.num 1, "second"⟩] =
      [(⟨1, "t", "a"⟩ : SubtitleEntry)].map
        (mergedSpec looseEqId [⟨.num 1, "first"⟩, ⟨.num 1, "second"⟩]) :=
  C10_duplicate_result_ids_last_wins [⟨1, "t", "a"⟩] (by decide)
    [⟨.num 1, "first"⟩, ⟨.num 1, "second"⟩]

end GPTTranslator
